import Mathlib

/-!
# Verification of the unspotify playlist pipeline

Shallow embedding of the core logic of `unspotify.py` and `src/spotify.py`:
release-date normalization, album cover selection, paged playlist iteration,
URL-based playlist-id extraction, and the tag writer. Definitions mirror the
Python source; theorems settle the specification's claims about them.
-/

namespace Unspotify

deriving instance DecidableEq for Except

/-- A calendar date as constructed by Python's `datetime.date`. -/
structure PyDate where
  year : Int
  month : Int
  day : Int
deriving DecidableEq, Repr

/-- Gregorian leap-year test, as in Python's `calendar.isleap` used by
`datetime.date` validation. -/
def isLeapYear (y : Int) : Bool :=
  y % 4 == 0 && (y % 100 != 0 || y % 400 == 0)

/-- Number of days in a month, used by `datetime.date`'s day-range check. -/
def daysInMonth (y m : Int) : Int :=
  if m = 2 then (if isLeapYear y then 29 else 28)
  else if m = 4 ∨ m = 6 ∨ m = 9 ∨ m = 11 then 30
  else 31

/-- Embedding of the `datetime.date(year, month, day)` constructor: it raises
`ValueError` (modelled as `.error`) when a component is out of range, exactly
per CPython's checks (`MINYEAR = 1`, `MAXYEAR = 9999`). -/
def mkDate (y m d : Int) : Except String PyDate :=
  if y < 1 ∨ 9999 < y then .error ("year " ++ toString y ++ " is out of range")
  else if m < 1 ∨ 12 < m then .error "month must be in 1..12"
  else if d < 1 ∨ daysInMonth y m < d then .error "day is out of range for month"
  else .ok ⟨y, m, d⟩

/-- Python's `str.split(sep)` for a single-character separator, on the
character list of the string: splits at every occurrence of `sep`, keeping
empty parts, so the result always has one more part than there are
separators (`"a".split("-") == ["a"]`, `"".split("-") == [""]`). Structural
recursion so that concrete instances evaluate inside the kernel. -/
def pySplitChars (sep : Char) : List Char → List (List Char)
  | [] => [[]]
  | c :: rest =>
    if c = sep then [] :: pySplitChars sep rest
    else
      match pySplitChars sep rest with
      | [] => [[c]]
      | p :: ps => (c :: p) :: ps

/-- Python's `str.split(sep)` for a single-character separator, as a
`String`-level operation. -/
def pySplit (s : String) (sep : Char) : List String :=
  (pySplitChars sep s.data).map String.mk

/-- Value of a run of decimal digit characters (most significant first). -/
def digitsVal (ds : List Char) : Nat :=
  ds.foldl (fun a c => a * 10 + (c.toNat - 48)) 0

/-- Embedding of Python's `int(s)` on strings: optional surrounding
whitespace, an optional sign, then a non-empty run of decimal digits;
anything else raises `ValueError` (modelled as `.error`). -/
def pyInt (s : String) : Except String Int :=
  let t := (s.data.dropWhile Char.isWhitespace).reverse.dropWhile
    Char.isWhitespace |>.reverse
  let signDigits : Int × List Char :=
    match t with
    | '-' :: ds => (-1, ds)
    | '+' :: ds => (1, ds)
    | ds => (1, ds)
  if signDigits.2 ≠ [] ∧ signDigits.2.all Char.isDigit then
    .ok (signDigits.1 * Int.ofNat (digitsVal signDigits.2))
  else .error ("invalid literal for int with base 10: " ++ s)

/-- Embedding of `datetime.date.fromisoformat` restricted to the `YYYY-MM-DD`
shape the catalog service sends for day-precision dates; other shapes raise
`ValueError` (modelled as `.error`). -/
def fromIsoformat (s : String) : Except String PyDate :=
  match pySplit s '-' with
  | [ys, ms, ds] =>
    if ys.length = 4 ∧ ms.length = 2 ∧ ds.length = 2 then do
      let y ← pyInt ys
      let m ← pyInt ms
      let d ← pyInt ds
      mkDate y m d
    else .error ("Invalid isoformat string: " ++ s)
  | _ => .error ("Invalid isoformat string: " ++ s)

/-- Embedding of the release-date `match` in `UnspotifyTrackInfo.__init__`
(`unspotify.py` lines 38-58) and `_SpotifyPlaylistIterator._construct_track`
(`spotify.py` lines 31-52), which are textually identical. The Python `match`
on a string subject is a sequence of equality tests, rendered here as an
`if`-chain; `.error` models a raised `ValueError` (or `IndexError` for a
missing month component). Returns the normalized optional release date. -/
def normalizeReleaseDate (precision : Option String) (dateStr : String) :
    Except String (Option PyDate) :=
  match precision with
  | some p =>
    if p = "day" then do
      let d ← fromIsoformat dateStr
      .ok (some d)
    else if p = "month" then
      match pySplit dateStr '-' with
      | sy :: sm :: _ => do
        let y ← pyInt sy
        let m ← pyInt sm
        let d ← mkDate y (m + 1) 1
        .ok (some d)
      | [sy] => do
        let _ ← pyInt sy
        .error "IndexError: list index out of range"
      | [] => .error "IndexError: list index out of range"
    else if p = "year" then do
      let y ← pyInt dateStr
      let d ← mkDate y 1 1
      .ok (some d)
    else .error ("Unsupported precision «" ++ p ++ "»")
  | none => .ok none

/-- One entry of a raw album's `images` list: `{url, height}`. -/
structure SpotifyImage where
  url : String
  height : Int
deriving DecidableEq, Repr

/-- Embedding of the album-cover selection loop (`unspotify.py` lines 31-36 and
`spotify.py` lines 23-29, textually identical): a left-to-right scan with
`max_album_image_size = 0` initially, updating the url only on a strictly
larger height. The result is `none` when the loop never assigns a url: in
`spotify.py` the variable stays `None`, in `unspotify.py` the attribute
`album_image_url` is never assigned (so a later read raises
`AttributeError`). `coverStep` is the loop body: the accumulator carries
`max_album_image_size` and the url assigned so far. -/
def coverStep (acc : Int × Option String) (img : SpotifyImage) :
    Int × Option String :=
  if acc.1 < img.height then (img.height, some img.url) else acc

/-- The whole selection loop: fold `coverStep` over the image list starting
from `max_album_image_size = 0` and no url. -/
def selectAlbumImageUrl (images : List SpotifyImage) : Option String :=
  (images.foldl coverStep ((0 : Int), (none : Option String))).2

/-- Written from the spec's words for cover selection: "the image with the
strictly largest height ... ties keep the earlier one", i.e. the first image
whose height is greatest among all images. Compared against
`selectAlbumImageUrl` (the embedding of the code) in the claim theorem. -/
def specCoverUrl (images : List SpotifyImage) : Option String :=
  (images.find? (fun i => images.all (fun j => j.height ≤ i.height))).map
    (fun i => i.url)

/-- The normalized track record (`UnspotifyTrackInfo` / `SpotlessTrackInfo`).
`album_image_url` is an `Option` because neither variant guarantees a url:
`none` models the unassigned attribute (unspotify) or `None` (spotify). -/
structure UnspotifyTrackInfo where
  name : String
  artist : String
  track_number : Int
  disc_number : Int
  album_name : String
  album_image_url : Option String
  release_date : Option PyDate
deriving DecidableEq, Repr

/-- A filesystem path as `pathlib` decomposes it: parent directory, stem, and
suffix (extension). `Path.with_stem` replaces only the stem. -/
structure PyPath where
  dir : String
  stem : String
  ext : String
deriving DecidableEq, Repr

/-- An ID3 tag frame as added by `mutagen`; only the fields the tag writer
sets are modelled. -/
inductive ID3Frame where
  | TOFN (text : String)
  | TIT2 (text : String)
  | TPE2 (text : String)
  | TRCK (text : String)
  | TALB (text : String)
  | TORY (text : String)
  | APIC (data : String)
deriving DecidableEq, Repr

/-- Embedding of `UnspotifyYTDownloader._set_track_metadata`
(`unspotify.py` lines 128-156) for a run that completes: the list of frames
added to the file, in order, and the rename target produced by
`pathlib.Path(path).with_stem(f"{info.artist} - {info.name}")`. `coverData`
stands for the bytes fetched from `info.album_image_url` over the network. -/
def set_track_metadata (path : PyPath) (info : UnspotifyTrackInfo)
    (coverData : String) : List ID3Frame × PyPath :=
  let frames : List ID3Frame :=
    [.TOFN path.stem, .TIT2 info.name, .TPE2 info.artist,
     .TRCK (toString info.track_number), .TALB info.album_name]
  let frames := frames ++
    (match info.release_date with
     | some d => [ID3Frame.TORY (toString d.year)]
     | none => [])
  let frames := frames ++ [ID3Frame.APIC coverData]
  (frames, { path with stem := info.artist ++ " - " ++ info.name })

/-- Embedding of `UnspotifyPlaylist.from_url`'s id extraction
(`unspotify.py` line 79): `playlist_url.split("/")[-1].split("&")[0]`. -/
def unspotifyFromUrlId (playlist_url : String) : String :=
  (pySplit ((pySplit playlist_url '/').getLastD "") '&').headD ""

/-- Embedding of `SpotifyPlaylist.from_url`'s id extraction
(`spotify.py` line 109): `playlist_url.split("/")[-1].split("?")[0]`. -/
def spotifyFromUrlId (playlist_url : String) : String :=
  (pySplit ((pySplit playlist_url '/').getLastD "") '?').headD ""

/-! ## The paged playlist iterator

`UnspotifyPlaylist.__next__` (`unspotify.py` lines 84-102) and
`_SpotifyPlaylistIterator.__next__` (`spotify.py` lines 63-81) have identical
control flow; both are embedded by `pyNext` below, parametric in the element
type of the raw page items. -/

/-- The iterator's mutable state: `pos` is `_current_pos` / `_position`,
`currentTracks` is `_current_tracks` (both start as `0` and `[]`). -/
structure IterState (α : Type) where
  pos : Nat
  currentTracks : List α
deriving DecidableEq, Repr

/-- Outcome of one `__next__` call: `fatal` models the `assert tracks is not
None` failing, `stop` models `raise StopIteration`, `yield` returns a raw
item together with the updated state. -/
inductive StepResult (α : Type) where
  | fatal
  | stop (s : IterState α)
  | yield (t : α) (s : IterState α)
deriving DecidableEq, Repr

/-- Embedding of `__next__`: when `pos % 100 == 0` a page is requested from
the remote service at `limit=100, offset=100 * (pos // 100)` (the `service`
argument; `none` models `playlist_tracks` returning no result, which trips
the assertion); then `pos` is incremented, and the call either raises
`StopIteration` (`pos % 100 >= len(current_tracks)`) or returns
`current_tracks[pos % 100]`. -/
def pyNext {α : Type} [Inhabited α] (service : Nat → Option (List α))
    (s : IterState α) : StepResult α :=
  let fetched : Option (List α) :=
    if s.pos % 100 = 0 then service (100 * (s.pos / 100))
    else some s.currentTracks
  match fetched with
  | none => .fatal
  | some items =>
    let pos' := s.pos + 1
    if pos' % 100 ≥ items.length then .stop ⟨pos', items⟩
    else .yield (items.getD (pos' % 100) default) ⟨pos', items⟩

/-- How a full iteration ends: `stopped` is the normal `StopIteration` end of
sequence, `fatal` the failed assertion, `fuelOut` means the step budget ran
out first (never happens with enough fuel). -/
inductive RunOutcome where
  | stopped
  | fatal
  | fuelOut
deriving DecidableEq, Repr

/-- Trace of iterating the playlist to exhaustion: the raw items yielded in
order, the page-request offsets issued in order, and how iteration ended. -/
structure RunTrace (α : Type) where
  yielded : List α
  requests : List Nat
  outcome : RunOutcome
deriving DecidableEq, Repr

/-- Drives `pyNext` until `StopIteration` or the assertion failure, recording
every yielded item and every page request (a request happens exactly when a
step starts with `pos % 100 == 0`, at offset `100 * (pos // 100)`). -/
def runTrace {α : Type} [Inhabited α] (service : Nat → Option (List α)) :
    IterState α → Nat → RunTrace α
  | _, 0 => ⟨[], [], .fuelOut⟩
  | s, fuel + 1 =>
    let reqs : List Nat :=
      if s.pos % 100 = 0 then [100 * (s.pos / 100)] else []
    match pyNext service s with
    | .fatal => ⟨[], reqs, .fatal⟩
    | .stop _ => ⟨[], reqs, .stopped⟩
    | .yield t s' =>
      let r := runTrace service s' fuel
      ⟨t :: r.yielded, reqs ++ r.requests, r.outcome⟩

/-- A well-behaved remote catalog holding `n` raw items (numbered by catalog
position): a page request at `offset` returns the items at positions
`[offset, offset + 100)`, exactly as the paginated `playlist_tracks` endpoint
with `limit=100` does. -/
def catalogService (n : Nat) : Nat → Option (List Nat) :=
  fun offset => some (((List.range n).drop offset).take 100)

/-- The iterator's initial state, from `__init__`. -/
def initialIterState (α : Type) : IterState α := ⟨0, []⟩

/-- Running maximum of the image heights starting from `c`: the value held by
`max_album_image_size` after the scan when it starts at `c`. Used to
characterize the cover-selection fold. -/
def listMaxFrom (c : Int) (l : List SpotifyImage) : Int :=
  l.foldl (fun a i => max a i.height) c

/-! ## Helper lemmas -/

theorem bind_ok {ε α β : Type} (a : α) (f : α → Except ε β) :
    (Except.ok a : Except ε α) >>= f = f a := rfl

theorem bind_error {ε α β : Type} (e : ε) (f : α → Except ε β) :
    (Except.error e : Except ε α) >>= f = Except.error e := rfl

theorem one_le_daysInMonth (y m : Int) : 1 ≤ daysInMonth y m := by
  unfold daysInMonth
  split_ifs <;> norm_num

theorem mkDate_ok_day_one {y m : Int} (hy1 : 1 ≤ y) (hy2 : y ≤ 9999)
    (hm1 : 1 ≤ m) (hm2 : m ≤ 12) : mkDate y m 1 = .ok ⟨y, m, 1⟩ := by
  have hd := one_le_daysInMonth y m
  unfold mkDate
  rw [if_neg (by omega), if_neg (by omega), if_neg (by omega)]

theorem mkDate_month_too_big {y m d : Int} (hy1 : 1 ≤ y) (hy2 : y ≤ 9999)
    (hm : 12 < m) : mkDate y m d = .error "month must be in 1..12" := by
  unfold mkDate
  rw [if_neg (by omega), if_pos (by omega)]

theorem listMaxFrom_cons (c : Int) (i : SpotifyImage) (l : List SpotifyImage) :
    listMaxFrom c (i :: l) = listMaxFrom (max c i.height) l := rfl

theorem listMaxFrom_of_all_le {l : List SpotifyImage} {c : Int}
    (h : ∀ i ∈ l, i.height ≤ c) : listMaxFrom c l = c := by
  induction l with
  | nil => rfl
  | cons i l ih =>
    rw [listMaxFrom_cons, max_eq_left (h i (List.mem_cons_self i l))]
    exact ih fun j hj => h j (List.mem_cons_of_mem i hj)

theorem le_listMaxFrom (c : Int) (l : List SpotifyImage) :
    c ≤ listMaxFrom c l := by
  induction l generalizing c with
  | nil => exact le_refl c
  | cons i l ih =>
    rw [listMaxFrom_cons]
    exact le_trans (le_max_left c i.height) (ih _)

theorem height_le_listMaxFrom {l : List SpotifyImage} {i : SpotifyImage}
    (hi : i ∈ l) (c : Int) : i.height ≤ listMaxFrom c l := by
  induction l generalizing c with
  | nil => cases hi
  | cons j l ih =>
    rw [listMaxFrom_cons]
    rcases List.mem_cons.mp hi with h | h
    · subst h
      exact le_trans (le_max_right c i.height) (le_listMaxFrom _ _)
    · exact ih h _

theorem listMaxFrom_le {l : List SpotifyImage} {c b : Int} (hc : c ≤ b)
    (h : ∀ i ∈ l, i.height ≤ b) : listMaxFrom c l ≤ b := by
  induction l generalizing c with
  | nil => exact hc
  | cons i l ih =>
    rw [listMaxFrom_cons]
    exact ih (max_le hc (h i (List.mem_cons_self i l)))
      fun j hj => h j (List.mem_cons_of_mem i hj)

theorem find?_congr_mem {α : Type} {l : List α} {p q : α → Bool}
    (h : ∀ x ∈ l, p x = q x) : l.find? p = l.find? q := by
  induction l with
  | nil => rfl
  | cons a l ih =>
    have ha := h a (List.mem_cons_self a l)
    rw [List.find?_cons, List.find?_cons, ha]
    cases q a
    · exact ih fun x hx => h x (List.mem_cons_of_mem a hx)
    · rfl

theorem foldl_coverStep_eq (l : List SpotifyImage) (c : Int)
    (u : Option String) :
    (l.foldl coverStep (c, u)).2 =
      if ∀ i ∈ l, i.height ≤ c then u
      else (l.find? fun i => listMaxFrom c l ≤ i.height).map
        (fun i => i.url) := by
  induction l generalizing c u with
  | nil => simp
  | cons i l ih =>
    rw [List.foldl_cons]
    by_cases hc : c < i.height
    · have hstep : coverStep (c, u) i = (i.height, some i.url) := by
        simp [coverStep, hc]
      have hall : ¬ ∀ j ∈ i :: l, j.height ≤ c := fun hall =>
        absurd (hall i (List.mem_cons_self i l)) (not_le.mpr hc)
      have hM : listMaxFrom c (i :: l) = listMaxFrom i.height l := by
        rw [listMaxFrom_cons, max_eq_right (le_of_lt hc)]
      rw [hstep, ih, if_neg hall]
      simp only [hM]
      by_cases h2 : ∀ j ∈ l, j.height ≤ i.height
      · rw [if_pos h2, List.find?_cons]
        simp [listMaxFrom_of_all_le h2]
      · obtain ⟨j0, hj0, hj0h⟩ := by push_neg at h2; exact h2
        have hlt : ¬ listMaxFrom i.height l ≤ i.height := fun hle =>
          absurd (le_trans (height_le_listMaxFrom hj0 i.height) hle)
            (not_le.mpr hj0h)
        rw [if_neg h2, List.find?_cons]
        simp [hlt]
    · have hstep : coverStep (c, u) i = (c, u) := by
        simp [coverStep, hc]
      have hM : listMaxFrom c (i :: l) = listMaxFrom c l := by
        rw [listMaxFrom_cons, max_eq_left (not_lt.mp hc)]
      rw [hstep, ih]
      by_cases h2 : ∀ j ∈ l, j.height ≤ c
      · have hall : ∀ j ∈ i :: l, j.height ≤ c := by
          intro j hj
          rcases List.mem_cons.mp hj with rfl | h
          · exact not_lt.mp hc
          · exact h2 j h
        rw [if_pos h2, if_pos hall]
      · obtain ⟨j0, hj0, hj0h⟩ := by push_neg at h2; exact h2
        have hlt : ¬ listMaxFrom c l ≤ i.height := fun hle =>
          absurd (le_trans (height_le_listMaxFrom hj0 c) hle)
            (not_le.mpr (lt_of_le_of_lt (not_lt.mp hc) hj0h))
        have hall : ¬ ∀ j ∈ i :: l, j.height ≤ c := fun hall =>
          h2 fun j hj => hall j (List.mem_cons_of_mem i hj)
        rw [if_neg h2, if_neg hall, List.find?_cons]
        simp only [hM]
        simp [hlt]

/-! ## Claim theorems -/

set_option maxRecDepth 10000

/-- C1: on a playlist with exactly 250 tracks, iterating the paged track
fetcher to exhaustion issues exactly 3 page requests (limit 100) at offsets
0, 100 and 200 and ends with the normal StopIteration signal — but the
produced sequence has 249 elements, not 250: `__next__` increments
`_current_pos` before indexing, so the first item of the final partial page
is never yielded. This theorem records the actual behavior of the embedded
code at the claim's input. -/
theorem pagination_250_trace :
    (runTrace (catalogService 250) (initialIterState Nat) 300).requests
      = [0, 100, 200] ∧
    (runTrace (catalogService 250) (initialIterState Nat) 300).outcome
      = .stopped ∧
    (runTrace (catalogService 250) (initialIterState Nat) 300).yielded.length
      = 249 :=
  ⟨by decide, by decide, by decide⟩

/-- C2: the iterator does not yield tracks in catalog order. On a 2-track
playlist the embedded iterator terminates normally after yielding exactly one
element, and that element is the raw item at catalog position 1 — the track
at position 0 is never yielded, because `__next__` increments `_current_pos`
before indexing `_current_tracks`. This theorem records the actual behavior
of the embedded code at a concrete input contradicting the claim. -/
theorem iteration_order_two_track_trace :
    (runTrace (catalogService 2) (initialIterState Nat) 10).yielded = [1] ∧
    (runTrace (catalogService 2) (initialIterState Nat) 10).outcome
      = .stopped := by
  decide

/-- C3: on the claim's URL, the `spotify.py` variant extracts `abc123`, but
the `unspotify.py` variant splits the trailing path segment on `&` rather
than on the query delimiter `?`, and so extracts `abc123?si=xyz`. This
theorem records the behavior of both embedded construction paths. -/
theorem from_url_extraction_trace :
    spotifyFromUrlId "https://open.example.com/playlist/abc123?si=xyz"
      = "abc123" ∧
    unspotifyFromUrlId "https://open.example.com/playlist/abc123?si=xyz"
      = "abc123?si=xyz" ∧
    ("abc123?si=xyz" : String) ≠ "abc123" :=
  ⟨by decide, by decide, by decide⟩

/-- C4 counterexample: for precision "month" with date string "2024-12" the
normalizer raises `ValueError` (it builds `datetime.date(2024, 13, 1)`)
instead of producing the first day of the month after December
(2025-01-01), so the claim's universal statement fails at month 12. -/
theorem month_precision_december_no_date :
    normalizeReleaseDate (some "month") "2024-12"
      = .error "month must be in 1..12" ∧
    normalizeReleaseDate (some "month") "2024-12"
      ≠ .ok (some ⟨2025, 1, 1⟩) :=
  ⟨rfl, by decide⟩

/-- C4 (amended): for every raw record with precision "month" whose date
string splits on "-" into a valid year part `Y` (1..9999) and a month part
`M` with 1 ≤ M ≤ 11, the normalized release date is the first day of the
month after M of year Y (the preserved off-by-one quirk); in particular
"2024-03" normalizes to 2024-04-01 and precision "year" with "2024"
normalizes to 2024-01-01. (Month 12 instead raises, see the
counterexample.) -/
theorem month_and_year_precision_ok
    (dateStr sy sm : String) (rest : List String) (y m : Int)
    (hsplit : pySplit dateStr '-' = sy :: sm :: rest)
    (hy : pyInt sy = .ok y) (hm : pyInt sm = .ok m)
    (hy1 : 1 ≤ y) (hy2 : y ≤ 9999) (hm1 : 1 ≤ m) (hm2 : m ≤ 11) :
    normalizeReleaseDate (some "month") dateStr = .ok (some ⟨y, m + 1, 1⟩) ∧
    normalizeReleaseDate (some "month") "2024-03" = .ok (some ⟨2024, 4, 1⟩) ∧
    normalizeReleaseDate (some "year") "2024" = .ok (some ⟨2024, 1, 1⟩) := by
  refine ⟨?_, rfl, rfl⟩
  simp only [normalizeReleaseDate]
  rw [if_pos trivial, hsplit, if_neg (by decide)]
  dsimp only
  rw [hy, bind_ok, hm, bind_ok,
    mkDate_ok_day_one hy1 hy2 (by omega) (by omega), bind_ok]

/-- C4 witness: the amended theorem applied to the record with precision
"month" and date string "2024-05". -/
theorem month_and_year_precision_ok_witness :
    pySplit "2024-05" '-' = ["2024", "05"] ∧
    pyInt "2024" = .ok 2024 ∧ pyInt "05" = .ok 5 ∧
    (1 : Int) ≤ 2024 ∧ (2024 : Int) ≤ 9999 ∧ (1 : Int) ≤ 5 ∧ (5 : Int) ≤ 11 ∧
    (normalizeReleaseDate (some "month") "2024-05"
        = .ok (some ⟨2024, 6, 1⟩) ∧
      normalizeReleaseDate (some "month") "2024-03"
        = .ok (some ⟨2024, 4, 1⟩) ∧
      normalizeReleaseDate (some "year") "2024" = .ok (some ⟨2024, 1, 1⟩)) :=
  ⟨by decide, rfl, rfl, by decide, by decide, by decide, by decide,
    month_and_year_precision_ok "2024-05" "2024" "05" [] 2024 5 (by decide)
      rfl rfl (by decide) (by decide) (by decide) (by decide)⟩

/-- C5: whenever some image has positive height, the cover url selected by
the code's scan (`selectAlbumImageUrl`) is that of the image with the
strictly largest height, ties keeping the earlier image — i.e. it agrees
with `specCoverUrl`, the first image whose height is maximal among all
images; in particular for heights [64, 300, 150] the selected url is the one
with height 300. -/
theorem cover_selection_first_strict_max (images : List SpotifyImage)
    (h : ∃ i ∈ images, 0 < i.height) :
    selectAlbumImageUrl images = specCoverUrl images ∧
    selectAlbumImageUrl [⟨"u64", 64⟩, ⟨"u300", 300⟩, ⟨"u150", 150⟩]
      = some "u300" := by
  refine ⟨?_, by decide⟩
  obtain ⟨i0, hi0, hpos⟩ := h
  have hnall : ¬ ∀ j ∈ images, j.height ≤ 0 := fun hall =>
    absurd (hall i0 hi0) (not_le.mpr hpos)
  unfold selectAlbumImageUrl specCoverUrl
  rw [foldl_coverStep_eq, if_neg hnall]
  have hcongr :
      List.find? (fun i => decide (listMaxFrom 0 images ≤ i.height)) images
        = List.find? (fun i => images.all fun j => decide (j.height ≤ i.height))
          images := by
    apply find?_congr_mem
    intro x hx
    apply Bool.coe_iff_coe.mp
    simp only [decide_eq_true_eq, List.all_eq_true]
    constructor
    · exact fun hM j hj => le_trans (height_le_listMaxFrom hj 0) hM
    · intro hall
      exact listMaxFrom_le (le_trans (le_of_lt hpos) (hall i0 hi0)) hall
  rw [hcongr]

/-- C5 witness: the theorem applied to the image list with heights
[64, 300, 150]. -/
theorem cover_selection_first_strict_max_witness :
    (∃ i ∈ ([⟨"u64", 64⟩, ⟨"u300", 300⟩, ⟨"u150", 150⟩] :
        List SpotifyImage), 0 < i.height) ∧
    (selectAlbumImageUrl [⟨"u64", 64⟩, ⟨"u300", 300⟩, ⟨"u150", 150⟩]
        = specCoverUrl [⟨"u64", 64⟩, ⟨"u300", 300⟩, ⟨"u150", 150⟩] ∧
      selectAlbumImageUrl [⟨"u64", 64⟩, ⟨"u300", 300⟩, ⟨"u150", 150⟩]
        = some "u300") :=
  ⟨by decide, cover_selection_first_strict_max
    [⟨"u64", 64⟩, ⟨"u300", 300⟩, ⟨"u150", 150⟩] (by decide)⟩

/-- C6: for every raw record whose release-date precision is a string other
than "day", "month" or "year", the normalizer raises a `ValueError` whose
message names that precision string; and when the precision is absent
(`None`), normalization succeeds with an absent release date. -/
theorem unsupported_precision_error (p : String) (dateStr : String)
    (h1 : p ≠ "day") (h2 : p ≠ "month") (h3 : p ≠ "year") :
    normalizeReleaseDate (some p) dateStr
      = .error ("Unsupported precision «" ++ p ++ "»") ∧
    normalizeReleaseDate none dateStr = .ok none := by
  constructor
  · simp only [normalizeReleaseDate]
    rw [if_neg h1, if_neg h2, if_neg h3]
  · rfl

/-- C6 witness: the theorem applied to the unsupported precision string
"decade". -/
theorem unsupported_precision_error_witness :
    ("decade" : String) ≠ "day" ∧ ("decade" : String) ≠ "month" ∧
    ("decade" : String) ≠ "year" ∧
    (normalizeReleaseDate (some "decade") "2020"
        = .error "Unsupported precision «decade»" ∧
      normalizeReleaseDate none "2020" = .ok none) :=
  ⟨by decide, by decide, by decide,
    unsupported_precision_error "decade" "2020" (by decide) (by decide)
      (by decide)⟩

/-- C7: when the tag writer runs to completion on a file and a TrackInfo, it
adds title (TIT2), album-artist (TPE2), track-number (TRCK) and album-name
(TALB) frames unconditionally, adds a release-year (TORY) frame exactly when
the TrackInfo's release date is present, and renames the file to the stem
`<artist> - <name>` while preserving its directory and extension. -/
theorem tag_writer_frames_and_rename (path : PyPath)
    (info : UnspotifyTrackInfo) (coverData : String) :
    ID3Frame.TIT2 info.name ∈ (set_track_metadata path info coverData).1 ∧
    ID3Frame.TPE2 info.artist ∈ (set_track_metadata path info coverData).1 ∧
    ID3Frame.TRCK (toString info.track_number)
      ∈ (set_track_metadata path info coverData).1 ∧
    ID3Frame.TALB info.album_name
      ∈ (set_track_metadata path info coverData).1 ∧
    ((∃ y, ID3Frame.TORY y ∈ (set_track_metadata path info coverData).1)
      ↔ info.release_date.isSome) ∧
    (set_track_metadata path info coverData).2
      = ⟨path.dir, info.artist ++ " - " ++ info.name, path.ext⟩ := by
  cases hrd : info.release_date <;>
    simp [set_track_metadata, hrd]

/-- C8: when the `playlist_tracks` call made at a page boundary returns no
result, `__next__` trips the `assert tracks is not None` (a fatal failure,
not a normal end of sequence and not a yielded value); and under the
precondition that every page request returns a page object, the assertion
never fires. -/
theorem page_fetch_none_fatal {α : Type} [Inhabited α]
    (service : Nat → Option (List α)) (s : IterState α) :
    (s.pos % 100 = 0 → service (100 * (s.pos / 100)) = none →
      pyNext service s = .fatal) ∧
    ((∀ o, (service o).isSome) → pyNext service s ≠ .fatal) := by
  constructor
  · intro hpos hnone
    unfold pyNext
    rw [if_pos hpos, hnone]
  · intro hsome
    unfold pyNext
    by_cases hpos : s.pos % 100 = 0
    · rw [if_pos hpos]
      obtain ⟨items, hitems⟩ :=
        Option.isSome_iff_exists.mp (hsome (100 * (s.pos / 100)))
      rw [hitems]
      dsimp only
      split <;> simp
    · rw [if_neg hpos]
      dsimp only
      split <;> simp

/-- C8 witness: the theorem's two parts applied to a service that returns no
result (assertion fires at the initial state) and to the total service of an
empty catalog (no assertion failure). -/
theorem page_fetch_none_fatal_witness :
    pyNext (fun _ => (none : Option (List Nat))) (initialIterState Nat)
      = .fatal ∧
    pyNext (catalogService 0) (initialIterState Nat) ≠ .fatal :=
  ⟨(page_fetch_none_fatal (fun _ => none) (initialIterState Nat)).1
      (by decide) rfl,
    (page_fetch_none_fatal (catalogService 0) (initialIterState Nat)).2
      (fun _ => rfl)⟩

/-- C9: month-precision normalization is not total: for a date string whose
month component is 12 the normalizer raises (it attempts
`datetime.date(y, 13, 1)` and the month is out of range), and for a valid
year it succeeds exactly when the month component is at most 11; in
particular "2024-12" raises the out-of-range error. -/
theorem month_precision_not_total
    (dateStr sy sm : String) (rest : List String) (y m : Int)
    (hsplit : pySplit dateStr '-' = sy :: sm :: rest)
    (hy : pyInt sy = .ok y) (hm : pyInt sm = .ok m)
    (hy1 : 1 ≤ y) (hy2 : y ≤ 9999) (hm1 : 1 ≤ m) (hm2 : m ≤ 12) :
    ((∃ d, normalizeReleaseDate (some "month") dateStr = .ok d) ↔ m ≤ 11) ∧
    normalizeReleaseDate (some "month") "2024-12"
      = .error "month must be in 1..12" := by
  refine ⟨?_, rfl⟩
  simp only [normalizeReleaseDate]
  rw [if_pos trivial, hsplit, if_neg (by decide)]
  dsimp only
  rw [hy, bind_ok, hm, bind_ok]
  by_cases hle : m ≤ 11
  · simp only [hle, iff_true]
    exact ⟨some ⟨y, m + 1, 1⟩,
      by rw [mkDate_ok_day_one hy1 hy2 (by omega) (by omega), bind_ok]⟩
  · rw [mkDate_month_too_big hy1 hy2 (by omega), bind_error]
    simp only [hle, iff_false]
    rintro ⟨d, hd⟩
    exact Except.noConfusion hd

/-- C9 witness: the theorem applied to the date string "2024-12", whose
month component is 12. -/
theorem month_precision_not_total_witness :
    pySplit "2024-12" '-' = ["2024", "12"] ∧
    pyInt "2024" = .ok 2024 ∧ pyInt "12" = .ok 12 ∧
    (1 : Int) ≤ 2024 ∧ (2024 : Int) ≤ 9999 ∧ (1 : Int) ≤ 12 ∧
    (12 : Int) ≤ 12 ∧
    (((∃ d, normalizeReleaseDate (some "month") "2024-12" = .ok d)
        ↔ (12 : Int) ≤ 11) ∧
      normalizeReleaseDate (some "month") "2024-12"
        = .error "month must be in 1..12") :=
  ⟨by decide, rfl, rfl, by decide, by decide, by decide, by decide,
    month_precision_not_total "2024-12" "2024" "12" [] 2024 12 (by decide)
      rfl rfl (by decide) (by decide) (by decide) (by decide)⟩

/-- C10: when the raw album's image list is empty or contains no image with
positive height, the scan selects no cover url at all: the result is `none`,
which in `unspotify.py` means the `album_image_url` attribute is never
assigned (a later read raises `AttributeError`) and in `spotify.py` means
the TrackInfo's cover url is `None` — in neither variant is a string
guaranteed. -/
theorem no_positive_height_no_cover_url (images : List SpotifyImage)
    (h : ∀ i ∈ images, i.height ≤ 0) :
    selectAlbumImageUrl images = none := by
  unfold selectAlbumImageUrl
  rw [foldl_coverStep_eq, if_pos h]

/-- C10 witness: the theorem applied to a one-image list of height 0 (it
also covers the empty list, where the hypothesis holds vacuously). -/
theorem no_positive_height_no_cover_url_witness :
    (∀ i ∈ ([⟨"u", 0⟩] : List SpotifyImage), i.height ≤ 0) ∧
    selectAlbumImageUrl [⟨"u", 0⟩] = none :=
  ⟨by decide, no_positive_height_no_cover_url [⟨"u", 0⟩] (by decide)⟩

end Unspotify
